import Mathlib

/-!
Verification of the turn-resolution core of the roguelike engine
(`baserl`): entity/component data model (Fighter, Level, Equipment,
Inventory, AI), the action layer (movement, melee, bump), consumable
effects (lightning bolt), the confused-enemy AI and the turn driver.

The definitions below are a shallow embedding of the Python sources:
classes become structures, attribute mutation becomes explicit state
passing, `raise exceptions.Impossible(msg)` becomes returning
`some msg` (or `Except.error msg`) next to the state that was current
at the moment of the raise, and the engine message log is threaded as
a `List String` (the log's colour tags are presentation-only and are
not modelled).  Python object identity (entity references, `is`,
default `==` on objects) is modelled by a numeric `id` field that is
unique per entity.
-/

/-- `equipment_types.EquipmentType`. -/
inductive EquipmentType where
  | WEAPON
  | ARMOR
deriving DecidableEq

/-- `render_order.RenderOrder`. -/
inductive RenderOrder where
  | CORPSE
  | ITEM
  | ACTOR
deriving DecidableEq

/-- `components.ai`: the AI strategy attached to an actor.
`noAI` stands for the Python `None` in the actor's `ai` slot, so that
`ConfusedEnemy.previous_ai : Optional[BaseAI]` can be embedded without
a nested `Option`.  `hostile` carries the cached path of
`HostileEnemy`, `confused` carries `previous_ai` and `turns_remaining`
of `ConfusedEnemy`. -/
inductive AIState where
  | noAI
  | hostile (path : List (Int × Int))
  | confused (previous : AIState) (turns_remaining : Int)
deriving DecidableEq

/-- `components.equippable.Equippable` (data fields). -/
structure Equippable where
  equipment_type : EquipmentType
  power_bonus : Int
  defense_bonus : Int
deriving DecidableEq

/-- `entity.Item`: the slice of an item entity that the claims need
(identity, display name and the optional `Equippable` component). -/
structure Item where
  id : Nat
  name : String
  equippable : Option Equippable
deriving DecidableEq

/-- `components.equipment.Equipment`: one optional weapon, one optional
armor slot. -/
structure Equipment where
  weapon : Option Item
  armor : Option Item
deriving DecidableEq

/-- `components.fighter.Fighter` (data fields; `hp` is the private
`_hp` attribute, written only through the `hp` setter embedded as
`hpSet` below). -/
structure Fighter where
  max_hp : Int
  hp : Int
  base_defense : Int
  base_power : Int
deriving DecidableEq

/-- `components.level.Level` (data fields). -/
structure Level where
  current_level : Int
  current_xp : Int
  level_up_base : Int
  level_up_factor : Int
  xp_given : Int
deriving DecidableEq

/-- A `Level()` built with the Python constructor defaults
`(current_level=1, current_xp=0, level_up_base=0, level_up_factor=150,
xp_given=0)`. -/
def Level.mkDefault : Level :=
  { current_level := 1, current_xp := 0, level_up_base := 0
    level_up_factor := 150, xp_given := 0 }

/-- `Level.experience_to_next_level`:
`self.level_up_base + self.current_level * self.level_up_factor`. -/
def Level.experience_to_next_level (l : Level) : Int :=
  l.level_up_base + l.current_level * l.level_up_factor

/-- `Level.requires_level_up`:
`self.current_xp > self.experience_to_next_level`. -/
def Level.requires_level_up (l : Level) : Bool :=
  decide (l.experience_to_next_level < l.current_xp)

/-- `Level.increase_level`: subtract the current threshold from
`current_xp`, then increment `current_level`. -/
def Level.increase_level (l : Level) : Level :=
  { l with current_xp := l.current_xp - l.experience_to_next_level
           current_level := l.current_level + 1 }

/-- `Level.add_xp`.  The engine message log is threaded explicitly;
`self.engine.message_log.add_message(text)` appends `text`. -/
def Level.add_xp (l : Level) (xp : Int) (log : List String) :
    Level × List String :=
  if xp = 0 ∨ l.level_up_base = 0 then (l, log)
  else
    let l1 : Level := { l with current_xp := l.current_xp + xp }
    let log1 := log ++ ["You gain " ++ toString xp ++ " experience points."]
    if l1.requires_level_up then
      (l1, log1 ++ ["You advance to level " ++
        toString (l1.current_level + 1) ++ "!"])
    else
      (l1, log1)

/-- Repeated `Level.add_xp` calls, one per element of the list. -/
def Level.addXpSeq (l : Level) (xs : List Int) (log : List String) :
    Level × List String :=
  match xs with
  | [] => (l, log)
  | x :: rest =>
    let s := l.add_xp x log
    Level.addXpSeq s.1 rest s.2

/-- `entity.Actor`: entity-level fields plus the actor components.
The `parent` back reference (map/inventory) is implicit in the world
state; `inventory` is the `Inventory.items` list (its capacity does
not matter to the claims below). -/
structure ActorE where
  id : Nat
  x : Int
  y : Int
  char : String
  color : Int × Int × Int
  name : String
  blocks_movement : Bool
  render_order : RenderOrder
  ai : AIState
  fighter : Fighter
  level : Level
  equipment : Equipment
  inventory : List Item
deriving DecidableEq

/-- `entity.Item` as it sits on a map (entity-level fields only). -/
structure ItemE where
  id : Nat
  x : Int
  y : Int
  name : String
  blocks_movement : Bool
  render_order : RenderOrder
deriving DecidableEq

/-- An element of `GameMap.entities`. -/
inductive Entity where
  | actor (a : ActorE)
  | item (i : ItemE)
deriving DecidableEq

def Entity.id : Entity → Nat
  | .actor a => a.id
  | .item i => i.id

def Entity.x : Entity → Int
  | .actor a => a.x
  | .item i => i.x

def Entity.y : Entity → Int
  | .actor a => a.y
  | .item i => i.y

def Entity.blocks_movement : Entity → Bool
  | .actor a => a.blocks_movement
  | .item i => i.blocks_movement

/-- `Actor.is_alive`: `bool(self.ai)` — an actor is alive exactly when
its `ai` slot is not `None`. -/
def ActorE.is_alive (a : ActorE) : Bool := a.ai != AIState.noAI

/-- `Equipment.power_bonus`: weapon and armor each contribute when the
slot is occupied by an item that has an `Equippable` component. -/
def Equipment.power_bonus (e : Equipment) : Int :=
  (match e.weapon with
   | some it => match it.equippable with
     | some eq => eq.power_bonus
     | none => 0
   | none => 0) +
  (match e.armor with
   | some it => match it.equippable with
     | some eq => eq.power_bonus
     | none => 0
   | none => 0)

/-- `Equipment.defense_bonus`, same shape as `power_bonus`. -/
def Equipment.defense_bonus (e : Equipment) : Int :=
  (match e.weapon with
   | some it => match it.equippable with
     | some eq => eq.defense_bonus
     | none => 0
   | none => 0) +
  (match e.armor with
   | some it => match it.equippable with
     | some eq => eq.defense_bonus
     | none => 0
   | none => 0)

/-- `Fighter.power`: `base_power + power_bonus`; an `Actor` always
owns an `Equipment` component, so the `if self.parent.equipment`
branch of `Fighter.power_bonus` is always taken. -/
def ActorE.power (a : ActorE) : Int :=
  a.fighter.base_power + a.equipment.power_bonus

/-- `Fighter.defense`: `base_defense + defense_bonus`. -/
def ActorE.defense (a : ActorE) : Int :=
  a.fighter.base_defense + a.equipment.defense_bonus

/-- The engine state that `Fighter`'s hp setter and `Fighter.die` can
reach from a single actor: the actor itself, the player's `Level`
(`engine.player.level`), the message log and whether this actor *is*
the player (`engine.player is self.parent`).  When `isPlayer` is true
the dead actor's level and `playerLevel` are the same Python object,
which the functions below respect. -/
structure AState where
  actor : ActorE
  playerLevel : Level
  log : List String
  isPlayer : Bool
deriving DecidableEq

/-- `Fighter.die`: corpse conversion of the owning actor, a death
message, then `engine.player.level.add_xp(self.parent.level.xp_given)`.
The death message is computed from the name before renaming, exactly
as in the source. -/
def die (s : AState) : AState :=
  let deathMessage :=
    if s.isPlayer then "You died!" else s.actor.name ++ " is dead!"
  let a := s.actor
  let corpse : ActorE :=
    { a with char := "%", color := (191, 0, 0), blocks_movement := false
             ai := AIState.noAI, name := "remains of " ++ a.name
             render_order := RenderOrder.CORPSE }
  let log1 := s.log ++ [deathMessage]
  if s.isPlayer then
    -- `engine.player.level` and `self.parent.level` are one object
    let r := a.level.add_xp a.level.xp_given log1
    { actor := { corpse with level := r.1 }, playerLevel := r.1
      log := r.2, isPlayer := true }
  else
    let r := s.playerLevel.add_xp a.level.xp_given log1
    { s with actor := corpse, playerLevel := r.1, log := r.2 }

/-- The branch condition of the hp setter:
`self._hp == 0 and self.parent.ai` (evaluated on the state before the
write, whose `max_hp` and `ai` the write does not change before the
check). -/
def dieFires (s : AState) (value : Int) : Bool :=
  decide (max 0 (min value s.actor.fighter.max_hp) = 0) && s.actor.is_alive

/-- The `Fighter.hp` setter:
`self._hp = max(0, min(value, self.max_hp))`, then `self.die()` when
the stored hp is `0` and the owning actor still has an AI. -/
def hpSet (value : Int) (s : AState) : AState :=
  let f := s.actor.fighter
  let s1 : AState :=
    { s with actor :=
      { s.actor with fighter := { f with hp := max 0 (min value f.max_hp) } } }
  if dieFires s value then die s1 else s1

/-- A sequence of writes through the hp setter. -/
def hpWriteSeq (vs : List Int) (s : AState) : AState :=
  match vs with
  | [] => s
  | v :: rest => hpWriteSeq rest (hpSet v s)

/-- How many writes of the sequence take the `die` branch. -/
def dieFireCount (vs : List Int) (s : AState) : Nat :=
  match vs with
  | [] => 0
  | v :: rest =>
    (if dieFires s v then 1 else 0) + dieFireCount rest (hpSet v s)

/-- The engine-plus-map state the actions touch: `GameMap`'s
dimensions, `tiles["walkable"]`, `visible`, `entities` (the Python
set, with one fixed iteration order), `engine.player` (by id) and
`engine.message_log` (texts only).  `walkable`/`visible` are total
functions; the source only indexes them in bounds. -/
structure World where
  width : Int
  height : Int
  walkable : Int → Int → Bool
  visible : Int → Int → Bool
  entities : List Entity
  playerId : Nat
  log : List String

/-- `GameMap.in_bounds`: `0 <= x < self.width and 0 <= y < self.height`. -/
def World.in_bounds (w : World) (x y : Int) : Bool :=
  decide (0 ≤ x ∧ x < w.width ∧ 0 ≤ y ∧ y < w.height)

/-- `GameMap.get_blocking_entity_at_location`: first entity (in
iteration order) with `blocks_movement` at the coordinate. -/
def World.get_blocking_entity_at_location (w : World) (x y : Int) :
    Option Entity :=
  w.entities.find? fun e =>
    e.blocks_movement && decide (e.x = x) && decide (e.y = y)

/-- `GameMap.actors`: the living actors, in entity iteration order. -/
def World.aliveActors (w : World) : List ActorE :=
  w.entities.filterMap fun e =>
    match e with
    | .actor a => if a.is_alive then some a else none
    | .item _ => none

/-- `GameMap.get_actor_at_location`: first living actor at the
coordinate. -/
def World.get_actor_at_location (w : World) (x y : Int) : Option ActorE :=
  w.aliveActors.find? fun a => decide (a.x = x) && decide (a.y = y)

/-- First actor of the entity list with the given identity. -/
def findActorIn (id : Nat) : List Entity → Option ActorE
  | [] => none
  | .actor a :: rest => if a.id = id then some a else findActorIn id rest
  | .item _ :: rest => findActorIn id rest

/-- Look an actor entity up by identity.  In Python an action holds a
direct reference to its actor; in the embedding the world is the
single owner and references are ids. -/
def World.findActor (w : World) (id : Nat) : Option ActorE :=
  findActorIn id w.entities

/-- Mutate the actor object with the given identity (attribute
assignment through a Python reference). -/
def World.updateActor (w : World) (id : Nat) (f : ActorE → ActorE) :
    World :=
  { w with entities := w.entities.map fun e =>
      match e with
      | .actor a => if a.id = id then .actor (f a) else e
      | .item i => .item i }

/-- No two entities of the world share an id: the embedding's
rendering of Python object identity being unique per object. -/
@[reducible]
def World.idsNodup (w : World) : Prop :=
  (w.entities.map Entity.id).Nodup

/-- `engine.message_log.add_message` (text only). -/
def World.addMessage (w : World) (msg : String) : World :=
  { w with log := w.log ++ [msg] }

/-- The `AState` slice the hp setter runs on for a worldly target:
the target actor, the player's level (the target's own when the
target *is* the player) and the message log. -/
def setHpState (w : World) (targetId : Nat) (t : ActorE) (value : Int) :
    AState :=
  hpSet value
    { actor := t
      playerLevel :=
        if targetId = w.playerId then t.level
        else ((w.findActor w.playerId).map ActorE.level).getD Level.mkDefault
      log := w.log
      isPlayer := decide (targetId = w.playerId) }

/-- The `Fighter.hp` setter fired on an actor that lives in the world:
builds the `AState` slice, runs `hpSet`, and writes the results back.
The player always exists in a running engine; the `none` fallback is
unreachable there. -/
def World.setHp (w : World) (targetId : Nat) (value : Int) : World :=
  match w.findActor targetId with
  | none => w
  | some t =>
    let s := setHpState w targetId t value
    let w2 := ({ w with log := s.log }).updateActor targetId fun _ => s.actor
    if targetId = w.playerId then w2
    else w2.updateActor w.playerId fun p => { p with level := s.playerLevel }

/-- `Fighter.take_damage`: `self.hp -= amount`, reading the current hp
through the property and writing through the setter. -/
def World.takeDamage (w : World) (targetId : Nat) (amount : Int) : World :=
  match w.findActor targetId with
  | none => w
  | some t => w.setHp targetId (t.fighter.hp - amount)

/-- `MovementAction.perform`.  The three `Impossible` raises happen
before any mutation, so the failing cases return the unchanged world
together with the exception text. -/
def movementPerform (w : World) (e : ActorE) (dx dy : Int) :
    World × Option String :=
  let destX := e.x + dx
  let destY := e.y + dy
  if ¬ w.in_bounds destX destY then
    (w, some "The way is blocked")
  else if ¬ w.walkable destX destY then
    (w, some "The way is blocked")
  else if (w.get_blocking_entity_at_location destX destY).isSome then
    (w, some "The way is blocked")
  else
    (w.updateActor e.id (fun a => { a with x := a.x + dx, y := a.y + dy }),
     none)

/-- `MeleeAction.perform`. -/
def meleePerform (w : World) (e : ActorE) (dx dy : Int) :
    World × Option String :=
  let destX := e.x + dx
  let destY := e.y + dy
  match w.get_actor_at_location destX destY with
  | none => (w, some "Nothing to attack.")
  | some target =>
    let damage := e.power - target.defense
    let attackDesc := e.name.capitalize ++ " attacks " ++ target.name
    if 0 < damage then
      let w1 := w.addMessage
        (attackDesc ++ " for " ++ toString damage ++ " hit points.")
      (w1.takeDamage target.id damage, none)
    else
      (w.addMessage (attackDesc ++ " but does no damage."), none)

/-- `BumpAction.perform`: melee when a living actor occupies the
destination, movement otherwise. -/
def bumpPerform (w : World) (e : ActorE) (dx dy : Int) :
    World × Option String :=
  if (w.get_actor_at_location (e.x + dx) (e.y + dy)).isSome then
    meleePerform w e dx dy
  else
    movementPerform w e dx dy

/-- The candidate list `random.choice` draws from in
`ConfusedEnemy.perform`, in source order. -/
def directions : List (Int × Int) :=
  [(-1, -1), (0, -1), (1, -1),
   (-1, 0), (1, 0),
   (-1, 1), (0, 1), (1, 1)]

/-- `ConfusedEnemy.perform`.  The random draw is embedded as an oracle
`pick : Fin 8` indexing `directions`; a uniformly random `pick` is a
uniformly random compass direction because `directions` lists eight
distinct ones.  When `turns_remaining <= 0` the previous AI is
restored after a recovery message; otherwise `turns_remaining` is
decremented (a mutation that persists even if the bump raises) and a
`BumpAction` in the drawn direction is performed. -/
def confusedPerform (w : World) (id : Nat) (pick : Fin 8) :
    World × Option String :=
  match w.findActor id with
  | none => (w, none)
  | some a =>
    match a.ai with
    | AIState.confused previous turns =>
      if turns ≤ 0 then
        let w1 := w.addMessage ("The " ++ a.name ++ " is no longer confused.")
        (w1.updateActor id (fun x => { x with ai := previous }), none)
      else
        let d := directions.getD pick.val (0, 0)
        let decremented := AIState.confused previous (turns - 1)
        let w1 := w.updateActor id fun x => { x with ai := decremented }
        bumpPerform w1 { a with ai := decremented } d.1 d.2
    | _ => (w, none)

/-- `Entity.distance` squared: the source compares
`math.sqrt((x-self.x)**2 + (y-self.y)**2)` values with each other and
with the integer `maximun_range + 1.0`; squaring both sides of every
comparison is exact because the square root is strictly monotone on
nonnegative reals, so the embedding keeps the squares. -/
def distSq (cx cy x y : Int) : Int :=
  (x - cx) ^ 2 + (y - cy) ^ 2

/-- The scan loop of `LightingDamageConsumable.activate`: walk
`game_map.actors`, skip the consumer, require the actor's tile to be
visible, and keep the strictly closest actor so far (`closest` holds
the squared comparison threshold, initially `(maximun_range + 1)^2`). -/
def lightningLoop (consumer : ActorE) (vis : Int → Int → Bool) :
    List ActorE → Option ActorE → Int → Option ActorE × Int
  | [], target, closest => (target, closest)
  | a :: rest, target, closest =>
    if a.id ≠ consumer.id ∧ vis a.x a.y then
      if distSq consumer.x consumer.y a.x a.y < closest then
        lightningLoop consumer vis rest (some a)
          (distSq consumer.x consumer.y a.x a.y)
      else
        lightningLoop consumer vis rest target closest
    else
      lightningLoop consumer vis rest target closest

/-- `Inventory.items.remove(entity)`: drop the first occurrence of the
item (by identity). -/
def removeItemById : List Item → Nat → List Item
  | [], _ => []
  | i :: rest, id => if i.id = id then rest else i :: removeItemById rest id

/-- `LightingDamageConsumable.activate`.  `itemId` identifies the
scroll inside the consumer's inventory (`Consumable.consume` removes
`self.parent` from `entity.parent`, the inventory holding it);
`damage` and `maximunRange` are the consumable's fields. -/
def lightningActivate (w : World) (consumer : ActorE) (itemId : Nat)
    (damage maximunRange : Int) : World × Option String :=
  let scan := lightningLoop consumer w.visible w.aliveActors none
    ((maximunRange + 1) ^ 2)
  match scan.1 with
  | some target =>
    let w1 := w.addMessage ("A lighting bolt strikes the " ++ target.name ++
      " with a loud thunder, for " ++ toString damage ++ " damage!")
    let w2 := w1.takeDamage target.id damage
    (w2.updateActor consumer.id
      (fun c => { c with inventory := removeItemById c.inventory itemId }),
     none)
  | none => (w, some "No enemy is close enough to strike.")

/-- `EventHandler.handle_action`.  A submitted action is a state
transformer that may carry an `Impossible` text; `handle_enemy_turns`
and `update_fov` live in the engine module and are abstracted as the
parameters `enemyTurns` and `updateFov` — the theorem below holds for
every choice of them, which is exactly what "they do not run on a
failed action" means. -/
def handle_action (enemyTurns updateFov : World → World)
    (action : Option (World → World × Option String)) (w : World) :
    World × Bool :=
  match action with
  | none => (w, false)
  | some perform =>
    match perform w with
    | (w1, some msg) => (w1.addMessage msg, false)
    | (w1, none) => (updateFov (enemyTurns w1), true)

/-- The two slot names `toggle_equip` passes around as strings. -/
inductive Slot where
  | weapon
  | armor
deriving DecidableEq

/-- `getattr(self, slot)`. -/
def Equipment.getSlot (e : Equipment) : Slot → Option Item
  | .weapon => e.weapon
  | .armor => e.armor

/-- `setattr(self, slot, v)`. -/
def Equipment.setSlot (e : Equipment) (s : Slot) (v : Option Item) :
    Equipment :=
  match s with
  | .weapon => { e with weapon := v }
  | .armor => { e with armor := v }

/-- `Equipment.unequip_from_slot`.  When `add_message` is true the
source executes `self.unequip_from_slot(current_item.name)` — a
recursive call missing the required positional argument
`add_message` — so Python raises `TypeError` (or `AttributeError`
first when the slot is empty, from evaluating `current_item.name` on
`None`) before the slot is cleared.  The `Except.error` values embed
those uncaught exceptions. -/
def Equipment.unequip_from_slot (e : Equipment) (slot : Slot)
    (add_message : Bool) (log : List String) :
    Except String (Equipment × List String) :=
  let current := e.getSlot slot
  if add_message then
    match current with
    | none =>
      Except.error "AttributeError: NoneType object has no attribute name"
    | some _ =>
      Except.error
        "TypeError: unequip_from_slot missing 1 required positional argument: add_message"
  else
    Except.ok (e.setSlot slot none, log)

/-- `Equipment.equip_to_slot`: unequip the current occupant first,
then store the item and optionally log the equip message. -/
def Equipment.equip_to_slot (e : Equipment) (slot : Slot) (item : Item)
    (add_message : Bool) (log : List String) :
    Except String (Equipment × List String) :=
  match
    (match e.getSlot slot with
     | some _ => e.unequip_from_slot slot add_message log
     | none => Except.ok (e, log)) with
  | Except.error msg => Except.error msg
  | Except.ok (e1, log1) =>
    let e2 := e1.setSlot slot (some item)
    if add_message then
      Except.ok (e2, log1 ++ ["You equip the " ++ item.name ++ "."])
    else
      Except.ok (e2, log1)

/-- `Equipment.toggle_equip`: choose the slot from the item's
equipment type (weapon when it has an `Equippable` of type `WEAPON`,
armor otherwise), then unequip if that slot currently holds this very
item (Python `==` on items is object identity) and equip it there
otherwise.  `add_message` defaults to `True` at every call site in the
repository. -/
def Equipment.toggle_equip (e : Equipment) (item : Item)
    (add_message : Bool) (log : List String) :
    Except String (Equipment × List String) :=
  let slot : Slot :=
    match item.equippable with
    | some eq =>
      if eq.equipment_type = EquipmentType.WEAPON then Slot.weapon
      else Slot.armor
    | none => Slot.armor
  match e.getSlot slot with
  | some current =>
    if current.id = item.id then
      e.unequip_from_slot slot add_message log
    else
      e.equip_to_slot slot item add_message log
  | none => e.equip_to_slot slot item add_message log

/-! ## Concrete sample data (from `entity_factories`) used by the
witnesses and counterexamples. -/

/-- The orc template: `Fighter(hp=10, base_defense=0, base_power=3)`,
`Level(xp_given=100)`. -/
def sampleOrc : ActorE :=
  { id := 2, x := 1, y := 0, char := "o", color := (63, 127, 63)
    name := "Orc", blocks_movement := true
    render_order := RenderOrder.ACTOR, ai := AIState.hostile []
    fighter := { max_hp := 10, hp := 10, base_defense := 0, base_power := 3 }
    level := { current_level := 1, current_xp := 0, level_up_base := 0
               level_up_factor := 150, xp_given := 100 }
    equipment := { weapon := none, armor := none }
    inventory := [] }

/-- The player template: `Fighter(hp=30, base_defense=2, base_power=5)`,
`Level(level_up_base=200)`. -/
def samplePlayer : ActorE :=
  { id := 1, x := 0, y := 0, char := "@", color := (255, 255, 255)
    name := "Player", blocks_movement := true
    render_order := RenderOrder.ACTOR, ai := AIState.hostile []
    fighter := { max_hp := 30, hp := 30, base_defense := 2, base_power := 5 }
    level := { current_level := 1, current_xp := 0, level_up_base := 200
               level_up_factor := 150, xp_given := 0 }
    equipment := { weapon := none, armor := none }
    inventory := [] }

/-- The dagger: `Equippable(equipment_type=WEAPON, power_bonus=2)`. -/
def daggerItem : Item :=
  { id := 11, name := "Dagger"
    equippable := some { equipment_type := EquipmentType.WEAPON
                         power_bonus := 2, defense_bonus := 0 } }

/-- The sword: `Equippable(equipment_type=WEAPON, power_bonus=4)`. -/
def swordItem : Item :=
  { id := 12, name := "Sword"
    equippable := some { equipment_type := EquipmentType.WEAPON
                         power_bonus := 4, defense_bonus := 0 } }

/-- The engine slice of a live orc with the player's level, used by
the C1 witness. -/
def c1state : AState :=
  { actor := sampleOrc, playerLevel := samplePlayer.level
    log := [], isPlayer := false }

/-- The world of the C7 witness: everything non-walkable, the player
alone on the map. -/
def c7world : World :=
  { width := 5, height := 5, walkable := fun _ _ => false
    visible := fun _ _ => true, entities := [Entity.actor samplePlayer]
    playerId := 1, log := [] }

/-- The open 5×5 world of the C2 witness: player at the origin, a
blocking orc at `(1, 0)`. -/
def c2world : World :=
  { width := 5, height := 5
    walkable := fun x y => decide (0 ≤ x ∧ x < 5 ∧ 0 ≤ y ∧ y < 5)
    visible := fun _ _ => true
    entities := [Entity.actor samplePlayer, Entity.actor sampleOrc]
    playerId := 1, log := [] }

/-- A defender with effective defense 2 but only 2 hp left. -/
def c3defWeak : ActorE :=
  { sampleOrc with
    fighter := { max_hp := 10, hp := 2, base_defense := 2
                 base_power := 3 } }

/-- World of the C3 counterexample. -/
def c3cworld : World :=
  { width := 5, height := 5, walkable := fun _ _ => true
    visible := fun _ _ => true
    entities := [Entity.actor samplePlayer, Entity.actor c3defWeak]
    playerId := 1, log := [] }

/-- A defender with effective defense 2 and full 10 hp. -/
def c3defStrong : ActorE :=
  { sampleOrc with
    fighter := { max_hp := 10, hp := 10, base_defense := 2
                 base_power := 3 } }

/-- World of the C3 witness. -/
def c3world : World :=
  { width := 5, height := 5, walkable := fun _ _ => true
    visible := fun _ _ => true
    entities := [Entity.actor samplePlayer, Entity.actor c3defStrong]
    playerId := 1, log := [] }

/-- The engine slice of a dying orc seen against the player's level,
for the C10 witness. -/
def c10state : AState :=
  { actor := sampleOrc, playerLevel := samplePlayer.level
    log := [], isPlayer := false }

/-- The lightning scroll item as it sits in an inventory. -/
def lightningScroll : Item :=
  { id := 7, name := "Lighting Scroll", equippable := none }

/-- A player carrying the lightning scroll. -/
def c5consumer : ActorE :=
  { samplePlayer with inventory := [lightningScroll] }

/-- An orc at `(4, 4)`: Euclidean distance `sqrt 32 ≈ 5.66` from the
origin, beyond the scroll's `maximun_range = 5`. -/
def c5orc : ActorE := { sampleOrc with x := 4, y := 4 }

/-- World of the C5 counterexample. -/
def c5cworld : World :=
  { width := 10, height := 10, walkable := fun _ _ => true
    visible := fun _ _ => true
    entities := [Entity.actor c5consumer, Entity.actor c5orc]
    playerId := 1, log := [] }

/-- World of the C5 witness: the orc adjacent to the consumer. -/
def c5wworld : World :=
  { width := 10, height := 10, walkable := fun _ _ => true
    visible := fun _ _ => true
    entities := [Entity.actor c5consumer, Entity.actor sampleOrc]
    playerId := 1, log := [] }

/-- A confused orc with one turn of confusion left, wrapping its
previous hostile AI. -/
def c4orc : ActorE :=
  { sampleOrc with ai := AIState.confused (AIState.hostile []) 1 }

/-- World of the C4 witness. -/
def c4world : World :=
  { width := 5, height := 5, walkable := fun _ _ => true
    visible := fun _ _ => true
    entities := [Entity.actor samplePlayer, Entity.actor c4orc]
    playerId := 1, log := [] }

/-! ## Claim C6: level thresholds and level-up resolution -/

/-- C6: for every `Level`, `experience_to_next_level` equals
`level_up_base + current_level * level_up_factor`; `requires_level_up`
holds exactly when `current_xp` strictly exceeds that threshold; and
`increase_level()` subtracts the current threshold from `current_xp`
(it does not reset it to zero) and increments `current_level` by
exactly 1 while leaving the other fields unchanged, so pending
level-ups can be resolved one after another. -/
theorem c6_level_threshold_and_increase (l : Level) :
    l.experience_to_next_level
      = l.level_up_base + l.current_level * l.level_up_factor
    ∧ (l.requires_level_up = true ↔
        l.experience_to_next_level < l.current_xp)
    ∧ l.increase_level.current_xp
      = l.current_xp - l.experience_to_next_level
    ∧ l.increase_level.current_level = l.current_level + 1
    ∧ l.increase_level.level_up_base = l.level_up_base
    ∧ l.increase_level.level_up_factor = l.level_up_factor
    ∧ l.increase_level.xp_given = l.xp_given := by
  refine ⟨rfl, ?_, rfl, rfl, rfl, rfl, rfl⟩
  simp [Level.requires_level_up]

/-! ## Claim C9: `add_xp` is a no-op on zero xp or zero base -/

lemma addXpSeq_of_base_zero (xs : List Int) (l : Level)
    (log : List String) (h : l.level_up_base = 0) :
    Level.addXpSeq l xs log = (l, log) := by
  induction xs with
  | nil => rfl
  | cons x rest ih =>
    simp only [Level.addXpSeq, Level.add_xp, h, or_true, if_pos]
    exact ih

/-- C9: `Level.add_xp(xp)` leaves `current_xp` unchanged and logs
nothing whenever `xp = 0` or `level_up_base = 0`; in particular a
`Level` built with the constructor default `level_up_base = 0` never
accumulates experience however often xp is added. -/
theorem c9_add_xp_noop (l : Level) (xp : Int) (log : List String)
    (xs : List Int) (h : xp = 0 ∨ l.level_up_base = 0) :
    l.add_xp xp log = (l, log)
    ∧ Level.mkDefault.level_up_base = 0
    ∧ Level.addXpSeq Level.mkDefault xs log = (Level.mkDefault, log) := by
  refine ⟨?_, rfl, addXpSeq_of_base_zero xs _ log rfl⟩
  simp [Level.add_xp, h]

/-- Witness for C9 at `xp = 0` and a default-constructed level fed
`[50, 200, 1000]`. -/
theorem c9_add_xp_noop_witness :
    ((0 : Int) = 0 ∨ Level.mkDefault.level_up_base = 0)
    ∧ (Level.mkDefault.add_xp 0 [] = (Level.mkDefault, [])
       ∧ Level.mkDefault.level_up_base = 0
       ∧ Level.addXpSeq Level.mkDefault [50, 200, 1000] []
          = (Level.mkDefault, [])) :=
  ⟨Or.inl rfl, c9_add_xp_noop Level.mkDefault 0 [] [50, 200, 1000]
    (Or.inl rfl)⟩

/-! ## Claim C1: hp clamping and the exactly-once death transition -/

lemma die_fighter (s : AState) : (die s).actor.fighter = s.actor.fighter := by
  unfold die
  split <;> rfl

lemma die_ai (s : AState) : (die s).actor.ai = AIState.noAI := by
  unfold die
  split <;> rfl

lemma hpSet_fighter_hp (v : Int) (s : AState) :
    (hpSet v s).actor.fighter.hp = max 0 (min v s.actor.fighter.max_hp) := by
  unfold hpSet
  split
  · rw [die_fighter]
  · rfl

lemma hpSet_fighter_max (v : Int) (s : AState) :
    (hpSet v s).actor.fighter.max_hp = s.actor.fighter.max_hp := by
  unfold hpSet
  split
  · rw [die_fighter]
  · rfl

lemma dieFires_of_dead (v : Int) (s : AState) (h : s.actor.ai = AIState.noAI) :
    dieFires s v = false := by
  simp [dieFires, ActorE.is_alive, h]

lemma hpSet_ai_of_dead (v : Int) (s : AState) (h : s.actor.ai = AIState.noAI) :
    (hpSet v s).actor.ai = AIState.noAI := by
  unfold hpSet
  rw [dieFires_of_dead v s h]
  simpa using h

lemma hpSet_ai_of_fires (v : Int) (s : AState) (h : dieFires s v = true) :
    (hpSet v s).actor.ai = AIState.noAI := by
  unfold hpSet
  rw [h]
  simp [die_ai]

lemma hpSet_ai_of_not_fires (v : Int) (s : AState)
    (h : dieFires s v = false) : (hpSet v s).actor.ai = s.actor.ai := by
  unfold hpSet
  rw [h]
  simp

lemma dieFireCount_of_dead (vs : List Int) (s : AState)
    (h : s.actor.ai = AIState.noAI) : dieFireCount vs s = 0 := by
  induction vs generalizing s with
  | nil => rfl
  | cons v rest ih =>
    simp only [dieFireCount, dieFires_of_dead v s h, if_neg Bool.false_ne_true]
    simpa using ih (hpSet v s) (hpSet_ai_of_dead v s h)

lemma dieFireCount_of_alive (vs : List Int) (s : AState)
    (h : s.actor.ai ≠ AIState.noAI) :
    dieFireCount vs s =
      if vs.any (fun u => decide (max 0 (min u s.actor.fighter.max_hp) = 0))
      then 1 else 0 := by
  induction vs generalizing s with
  | nil => rfl
  | cons v rest ih =>
    have halive : s.actor.is_alive = true := by
      simp [ActorE.is_alive, h]
    simp only [dieFireCount, List.any_cons]
    by_cases hz : max 0 (min v s.actor.fighter.max_hp) = 0
    · have hfire : dieFires s v = true := by
        simp [dieFires, hz, halive]
      rw [hfire, dieFireCount_of_dead rest _ (hpSet_ai_of_fires v s hfire)]
      simp [hz]
    · have hfire : dieFires s v = false := by
        simp [dieFires, hz]
      have hai := hpSet_ai_of_not_fires v s hfire
      have hrec := ih (hpSet v s) (by rw [hai]; exact h)
      rw [hpSet_fighter_max] at hrec
      rw [hfire, hrec]
      simp [hz]

/-- C1: every write through the `Fighter.hp` setter stores
`max(0, min(value, max_hp))`, hence a value in `[0, max_hp]`; the
`die` branch fires on a write exactly when the clamped value is `0`
while the actor still has an AI, firing clears the AI, and over any
sequence of writes from a live actor the death transition runs exactly
once if some write clamps to `0` and never otherwise — in particular
not on later writes of `0` to an already dead actor. -/
theorem c1_hp_clamped_death_exactly_once (s : AState) (v : Int)
    (vs : List Int) (hmax : 0 ≤ s.actor.fighter.max_hp)
    (halive : s.actor.ai ≠ AIState.noAI) :
    (hpSet v s).actor.fighter.hp = max 0 (min v s.actor.fighter.max_hp)
    ∧ 0 ≤ (hpSet v s).actor.fighter.hp
    ∧ (hpSet v s).actor.fighter.hp ≤ s.actor.fighter.max_hp
    ∧ (dieFires s v = true ↔ max 0 (min v s.actor.fighter.max_hp) = 0)
    ∧ (dieFires s v = true → (hpSet v s).actor.ai = AIState.noAI)
    ∧ dieFireCount vs s =
        (if vs.any
            (fun u => decide (max 0 (min u s.actor.fighter.max_hp) = 0))
         then 1 else 0) := by
  refine ⟨hpSet_fighter_hp v s, ?_, ?_, ?_,
    fun h => hpSet_ai_of_fires v s h, dieFireCount_of_alive vs s halive⟩
  · rw [hpSet_fighter_hp]
    exact le_max_left 0 _
  · rw [hpSet_fighter_hp]
    exact max_le hmax (min_le_right v _)
  · simp [dieFires, ActorE.is_alive, halive]

/-- Witness for C1: an orc-like live actor, one write of `-5`
(clamping to `0` and killing), and the write sequence `[0, 7, 0]`
whose two zero-writes trigger `die` exactly once. -/
theorem c1_hp_clamped_death_exactly_once_witness :
    (0 ≤ c1state.actor.fighter.max_hp
     ∧ c1state.actor.ai ≠ AIState.noAI)
    ∧ ((hpSet (-5) c1state).actor.fighter.hp
        = max 0 (min (-5) c1state.actor.fighter.max_hp)
      ∧ 0 ≤ (hpSet (-5) c1state).actor.fighter.hp
      ∧ (hpSet (-5) c1state).actor.fighter.hp
          ≤ c1state.actor.fighter.max_hp
      ∧ (dieFires c1state (-5) = true ↔
          max 0 (min (-5) c1state.actor.fighter.max_hp) = 0)
      ∧ (dieFires c1state (-5) = true →
          (hpSet (-5) c1state).actor.ai = AIState.noAI)
      ∧ dieFireCount [0, 7, 0] c1state =
          (if [0, 7, 0].any
              (fun u =>
                decide (max 0 (min u c1state.actor.fighter.max_hp) = 0))
           then 1 else 0)) :=
  ⟨⟨by decide, by decide⟩,
    c1_hp_clamped_death_exactly_once c1state (-5) [0, 7, 0]
      (by decide) (by decide)⟩

/-! ## Claim C8: `toggle_equip` / `unequip_from_slot` -/

/-- C8 (code bug): toggling off an equipped item with the default
`add_message=True` does not unequip it — `unequip_from_slot` calls
itself where the source means `unequip_message`, dropping the required
`add_message` argument, so Python raises `TypeError` before the slot
is cleared; the same happens when equipping over an occupied slot.
Only with `add_message=False` (never passed in the repository) does
the toggle behave as documented. -/
theorem c8_toggle_equip_unequip_crashes :
    Equipment.toggle_equip
        { weapon := some daggerItem, armor := none } daggerItem true []
      = Except.error
          "TypeError: unequip_from_slot missing 1 required positional argument: add_message"
    ∧ Equipment.toggle_equip
        { weapon := some daggerItem, armor := none } swordItem true []
      = Except.error
          "TypeError: unequip_from_slot missing 1 required positional argument: add_message"
    ∧ Equipment.toggle_equip
        { weapon := some daggerItem, armor := none } daggerItem false []
      = Except.ok ({ weapon := none, armor := none }, [])
    ∧ Equipment.toggle_equip
        { weapon := none, armor := none } daggerItem true []
      = Except.ok ({ weapon := some daggerItem, armor := none },
          ["You equip the Dagger."]) :=
  ⟨rfl, rfl, rfl, rfl⟩

/-! ## Claim C7: the turn driver on `Impossible` vs. success -/

/-- C7: a submitted player action whose `perform` raises `Impossible`
has its reason logged and neither the enemy-turn sweep nor the FOV
recompute runs (the pair's `false` marks the turn as not consumed, so
the handler stays awaiting input); a normally returning action runs
the enemy sweep and then the FOV recompute before the next input, and
the turn is consumed.  `enemyTurns` and `updateFov` are arbitrary:
the failure result does not depend on them at all. -/
theorem c7_handle_action_control_flow
    (enemyTurns updateFov : World → World)
    (act : World → World × Option String) (w w1 : World)
    (r : Option String) (h : act w = (w1, r)) :
    handle_action enemyTurns updateFov (some act) w =
      match r with
      | some msg => (w1.addMessage msg, false)
      | none => (updateFov (enemyTurns w1), true) := by
  cases r with
  | some msg => simp [handle_action, h]
  | none => simp [handle_action, h]

/-- Witness for C7: a blocked `MovementAction` fails `Impossible`, the
handler logs "The way is blocked" and reports no turn consumed, with
enemy/FOV phases instantiated by observable log writers that leave no
trace. -/
theorem c7_handle_action_control_flow_witness :
    movementPerform c7world samplePlayer 1 0
      = (c7world, some "The way is blocked")
    ∧ handle_action (fun w => w.addMessage "enemy phase")
        (fun w => w.addMessage "fov phase")
        (some fun w => movementPerform w samplePlayer 1 0) c7world
      = (c7world.addMessage "The way is blocked", false) :=
  ⟨rfl,
    c7_handle_action_control_flow (fun w => w.addMessage "enemy phase")
      (fun w => w.addMessage "fov phase")
      (fun w => movementPerform w samplePlayer 1 0) c7world c7world
      (some "The way is blocked") rfl⟩

/-! ## Lookup and update lemmas for the world model -/

lemma findActorIn_update_self (id : Nat) (f : ActorE → ActorE)
    (es : List Entity) (hid : ∀ b, b.id = id → (f b).id = id) :
    findActorIn id (es.map fun e =>
      match e with
      | .actor a => if a.id = id then .actor (f a) else e
      | .item i => .item i) = (findActorIn id es).map f := by
  induction es with
  | nil => rfl
  | cons e rest ih =>
    cases e with
    | item i => simpa [findActorIn] using ih
    | actor a =>
      by_cases h : a.id = id
      · simp [findActorIn, h, hid a h]
      · simpa [findActorIn, h] using ih

lemma findActorIn_update_other (id j : Nat) (f : ActorE → ActorE)
    (es : List Entity) (hne : j ≠ id)
    (hid : ∀ b, b.id = id → (f b).id = id) :
    findActorIn j (es.map fun e =>
      match e with
      | .actor a => if a.id = id then .actor (f a) else e
      | .item i => .item i) = findActorIn j es := by
  induction es with
  | nil => rfl
  | cons e rest ih =>
    cases e with
    | item i => simpa [findActorIn] using ih
    | actor a =>
      have hij : ¬ id = j := fun hh => hne hh.symm
      by_cases h : a.id = id
      · have hfa : ¬ (f a).id = j := by
          rw [hid a h]
          exact hij
        simpa [findActorIn, h, hfa, hij] using ih
      · by_cases h2 : a.id = j
        · simp [findActorIn, h, h2, hne]
        · simpa [findActorIn, h, h2] using ih

lemma findActor_updateActor_self (w : World) (id : Nat)
    (f : ActorE → ActorE) (hid : ∀ b, b.id = id → (f b).id = id) :
    (w.updateActor id f).findActor id = (w.findActor id).map f :=
  findActorIn_update_self id f w.entities hid

lemma findActor_updateActor_other (w : World) (id j : Nat)
    (f : ActorE → ActorE) (hne : j ≠ id)
    (hid : ∀ b, b.id = id → (f b).id = id) :
    (w.updateActor id f).findActor j = w.findActor j :=
  findActorIn_update_other id j f w.entities hne hid

lemma findActorIn_of_mem_nodup (a : ActorE) (es : List Entity)
    (hmem : Entity.actor a ∈ es) (hnodup : (es.map Entity.id).Nodup) :
    findActorIn a.id es = some a := by
  induction es with
  | nil => cases hmem
  | cons e rest ih =>
    rcases List.mem_cons.mp hmem with heq | hmem2
    · subst heq
      simp [findActorIn]
    · have hnd := (List.nodup_cons.mp hnodup)
      cases e with
      | item i =>
        exact (by simpa [findActorIn] using ih hmem2 hnd.2)
      | actor b =>
        by_cases h : b.id = a.id
        · exfalso
          apply hnd.1
          rw [show (Entity.actor b).id = a.id from h]
          exact List.mem_map.mpr ⟨Entity.actor a, hmem2, rfl⟩
        · simpa [findActorIn, h] using ih hmem2 hnd.2

lemma findActor_of_mem_nodup (w : World) (a : ActorE)
    (hmem : Entity.actor a ∈ w.entities) (hnodup : w.idsNodup) :
    w.findActor a.id = some a :=
  findActorIn_of_mem_nodup a w.entities hmem hnodup

lemma get_actor_at_location_mem (w : World) (x y : Int) (t : ActorE)
    (h : w.get_actor_at_location x y = some t) :
    Entity.actor t ∈ w.entities ∧ t.is_alive = true ∧ t.x = x ∧ t.y = y := by
  have hmem := List.mem_of_find?_eq_some h
  have hpred := List.find?_some h
  have hx : t.x = x ∧ t.y = y := by
    constructor <;> [skip; skip] <;>
      simpa using (by
        have := hpred
        simp only [Bool.and_eq_true, decide_eq_true_eq] at this
        first
          | exact this.1
          | exact this.2)
  rcases List.mem_filterMap.mp hmem with ⟨e, hemem, hsome⟩
  cases e with
  | item i => simp at hsome
  | actor b =>
    by_cases hb : b.is_alive
    · simp only [hb, if_pos] at hsome
      cases hsome
      exact ⟨hemem, hb, hx⟩
    · simp [hb] at hsome

/-! ## Claim C2: `MovementAction.perform` -/

/-- C2: `MovementAction(dx,dy).perform` raises `Impossible` precisely
when the destination is out of bounds, or non-walkable, or occupied by
a blocking entity; in every failure case the whole world — in
particular the acting entity's position — is unchanged, and on success
the acting entity's position is translated by exactly `(dx, dy)`. -/
theorem c2_movement_impossible_iff (w : World) (e : ActorE) (dx dy : Int)
    (hmem : Entity.actor e ∈ w.entities) (hnodup : w.idsNodup) :
    ((movementPerform w e dx dy).2.isSome = true ↔
      (w.in_bounds (e.x + dx) (e.y + dy) = false
       ∨ w.walkable (e.x + dx) (e.y + dy) = false
       ∨ (w.get_blocking_entity_at_location (e.x + dx) (e.y + dy)).isSome
           = true))
    ∧ ((movementPerform w e dx dy).2.isSome = true →
        (movementPerform w e dx dy).1 = w)
    ∧ ((movementPerform w e dx dy).2 = none →
        (movementPerform w e dx dy).1.findActor e.id
          = some { e with x := e.x + dx, y := e.y + dy }) := by
  unfold movementPerform
  by_cases h1 : w.in_bounds (e.x + dx) (e.y + dy)
  · by_cases h2 : w.walkable (e.x + dx) (e.y + dy)
    · by_cases h3 :
        (w.get_blocking_entity_at_location (e.x + dx) (e.y + dy)).isSome
      · simp [h1, h2, h3]
      · -- success branch
        simp only [h1, h2, h3, not_true, Bool.not_eq_true, if_neg,
          if_pos, not_false_iff]
        refine ⟨?_, ?_, ?_⟩
        · simp [h1, h2, h3]
        · simp
        · intro _
          have hfind := findActor_of_mem_nodup w e hmem hnodup
          rw [findActor_updateActor_self w e.id
            (fun a => { a with x := a.x + dx, y := a.y + dy })
            (fun b hb => hb), hfind]
          rfl
    · simp [h1, h2]
  · simp [h1]

/-- Witness for C2: the player steps south onto a free walkable tile
and ends up translated by `(0, 1)`. -/
theorem c2_movement_impossible_iff_witness :
    (Entity.actor samplePlayer ∈ c2world.entities ∧ c2world.idsNodup)
    ∧ (((movementPerform c2world samplePlayer 0 1).2.isSome = true ↔
        (c2world.in_bounds (samplePlayer.x + 0) (samplePlayer.y + 1) = false
         ∨ c2world.walkable (samplePlayer.x + 0) (samplePlayer.y + 1) = false
         ∨ (c2world.get_blocking_entity_at_location (samplePlayer.x + 0)
              (samplePlayer.y + 1)).isSome = true))
      ∧ ((movementPerform c2world samplePlayer 0 1).2.isSome = true →
          (movementPerform c2world samplePlayer 0 1).1 = c2world)
      ∧ ((movementPerform c2world samplePlayer 0 1).2 = none →
          (movementPerform c2world samplePlayer 0 1).1.findActor
              samplePlayer.id
            = some { samplePlayer with x := samplePlayer.x + 0
                                       y := samplePlayer.y + 1 })) :=
  ⟨⟨by decide, by decide⟩,
    c2_movement_impossible_iff c2world samplePlayer 0 1
      (by decide) (by decide)⟩

/-! ## Claim C3: `MeleeAction.perform` -/

lemma findActorIn_id (id : Nat) (es : List Entity) (t : ActorE)
    (h : findActorIn id es = some t) : t.id = id := by
  induction es with
  | nil => cases h
  | cons e rest ih =>
    cases e with
    | item i => exact ih (by simpa [findActorIn] using h)
    | actor a =>
      by_cases ha : a.id = id
      · rw [findActorIn, if_pos ha] at h
        cases h
        exact ha
      · exact ih (by simpa [findActorIn, ha] using h)

lemma die_actor_id (s : AState) : (die s).actor.id = s.actor.id := by
  unfold die
  split <;> rfl

lemma hpSet_actor_id (v : Int) (s : AState) :
    (hpSet v s).actor.id = s.actor.id := by
  unfold hpSet
  split
  · rw [die_actor_id]
  · rfl

lemma hpSet_actor_fighter (v : Int) (s : AState) :
    (hpSet v s).actor.fighter =
      { s.actor.fighter with hp := max 0 (min v s.actor.fighter.max_hp) } := by
  unfold hpSet
  split
  · rw [die_fighter]
  · rfl

lemma setHpState_actor_id (w : World) (id : Nat) (t : ActorE) (v : Int) :
    (setHpState w id t v).actor.id = t.id := by
  unfold setHpState
  rw [hpSet_actor_id]

lemma setHpState_actor_fighter (w : World) (id : Nat) (t : ActorE)
    (v : Int) :
    (setHpState w id t v).actor.fighter =
      { t.fighter with hp := max 0 (min v t.fighter.max_hp) } := by
  unfold setHpState
  rw [hpSet_actor_fighter]

lemma setHp_target_hp (w : World) (id : Nat) (v : Int) (t : ActorE)
    (hfind : w.findActor id = some t) :
    ((w.setHp id v).findActor id).map (fun a => a.fighter.hp)
      = some (max 0 (min v t.fighter.max_hp)) := by
  have htid : t.id = id := findActorIn_id id w.entities t hfind
  have hcon : ∀ b : ActorE, b.id = id →
      ((fun _ : ActorE => (setHpState w id t v).actor) b).id = id :=
    fun b _ => (setHpState_actor_id w id t v).trans htid
  have hw1 : ({ w with log := (setHpState w id t v).log } : World).findActor
      id = some t := hfind
  unfold World.setHp
  rw [hfind]
  dsimp only
  by_cases hp : id = w.playerId
  · rw [if_pos hp, findActor_updateActor_self _ id _ hcon, hw1]
    simp [setHpState_actor_fighter]
  · rw [if_neg hp,
      findActor_updateActor_other _ w.playerId id
        (fun p => { p with level := (setHpState w id t v).playerLevel })
        hp (fun b hb => hb),
      findActor_updateActor_self _ id _ hcon, hw1]
    simp [setHpState_actor_fighter]

lemma takeDamage_target_hp (w : World) (id : Nat) (amount : Int)
    (t : ActorE) (hfind : w.findActor id = some t) :
    ((w.takeDamage id amount).findActor id).map (fun a => a.fighter.hp)
      = some (max 0 (min (t.fighter.hp - amount) t.fighter.max_hp)) := by
  unfold World.takeDamage
  rw [hfind]
  exact setHp_target_hp w id (t.fighter.hp - amount) t hfind

/-- C3 (amended): `MeleeAction.perform` raises `Impossible` exactly
when no living actor stands at the destination (and then changes
nothing); otherwise `damage = attacker effective power - defender
effective defense` with no clamping before the comparison: when
`damage > 0` the defender's stored hp becomes
`max(0, min(hp - damage, max_hp))` — a decrease of exactly `damage`
whenever `damage ≤ hp` — and when `damage ≤ 0` the world is unchanged
except for the logged "no damage" message. -/
theorem c3_melee_damage_through_clamp (w : World) (e : ActorE)
    (dx dy : Int) (tgt : Option ActorE) (hnodup : w.idsNodup)
    (htgt : w.get_actor_at_location (e.x + dx) (e.y + dy) = tgt) :
    match tgt with
    | none => meleePerform w e dx dy = (w, some "Nothing to attack.")
    | some t =>
      (meleePerform w e dx dy).2 = none
      ∧ (0 < e.power - t.defense →
          ((meleePerform w e dx dy).1.findActor t.id).map
              (fun a => a.fighter.hp)
            = some (max 0 (min (t.fighter.hp - (e.power - t.defense))
                t.fighter.max_hp)))
      ∧ (e.power - t.defense ≤ 0 →
          (meleePerform w e dx dy).1
            = w.addMessage (e.name.capitalize ++ " attacks " ++ t.name
                ++ " but does no damage.")) := by
  cases tgt with
  | none =>
    simp only [meleePerform, htgt]
  | some t =>
    have hmem := get_actor_at_location_mem w _ _ t htgt
    have hfind : w.findActor t.id = some t :=
      findActor_of_mem_nodup w t hmem.1 hnodup
    refine ⟨?_, ?_, ?_⟩
    · simp only [meleePerform, htgt]
      split <;> rfl
    · intro hd
      simp only [meleePerform, htgt]
      rw [if_pos hd]
      exact takeDamage_target_hp _ t.id _ t hfind
    · intro hle
      simp only [meleePerform, htgt]
      rw [if_neg (not_lt.mpr hle)]

/-- C3 counterexample: attacker power 5, defender defense 2, so
`damage = 3 > 0`, yet the defender's hp drops from 2 to 0 — a decrease
of 2, not "exactly damage" — because the hp setter clamps at 0. -/
theorem c3_counterexample_clamped_decrease :
    samplePlayer.power - c3defWeak.defense = 3
    ∧ c3defWeak.fighter.hp = 2
    ∧ ((meleePerform c3cworld samplePlayer 1 0).1.findActor 2).map
        (fun a => a.fighter.hp) = some 0
    ∧ c3defWeak.fighter.hp - (0 : Int) ≠
        samplePlayer.power - c3defWeak.defense := by
  refine ⟨by decide, by decide, ?_, by decide⟩
  decide

/-- Witness for C3 (amended): power 5 against defense 2 and hp 10
leaves the defender at hp 7 — a decrease of exactly the damage 3. -/
theorem c3_melee_damage_through_clamp_witness :
    (c3world.idsNodup
     ∧ c3world.get_actor_at_location (samplePlayer.x + 1)
        (samplePlayer.y + 0) = some c3defStrong)
    ∧ ((meleePerform c3world samplePlayer 1 0).2 = none
      ∧ (0 < samplePlayer.power - c3defStrong.defense →
          ((meleePerform c3world samplePlayer 1 0).1.findActor
              c3defStrong.id).map (fun a => a.fighter.hp)
            = some (max 0 (min (c3defStrong.fighter.hp -
                (samplePlayer.power - c3defStrong.defense))
                c3defStrong.fighter.max_hp)))
      ∧ (samplePlayer.power - c3defStrong.defense ≤ 0 →
          (meleePerform c3world samplePlayer 1 0).1
            = c3world.addMessage (samplePlayer.name.capitalize
                ++ " attacks " ++ c3defStrong.name
                ++ " but does no damage."))) :=
  ⟨⟨by decide, by decide⟩,
    c3_melee_damage_through_clamp c3world samplePlayer 1 0
      (some c3defStrong) (by decide) (by decide)⟩

/-! ## Claim C10: `Fighter.die` awards xp to the player and leaves a
non-blocking corpse -/

lemma add_xp_current_xp (l : Level) (xp : Int) (log : List String)
    (hbase : l.level_up_base ≠ 0) :
    (l.add_xp xp log).1.current_xp = l.current_xp + xp := by
  unfold Level.add_xp
  by_cases hx : xp = 0
  · simp [hx]
  · rw [if_neg (by simp [hx, hbase])]
    dsimp only
    split <;> rfl

/-- C10: whenever `Fighter.die` runs for a non-player actor — however
the final damage came about — the dead actor's `xp_given` is added to
the player's level (and to nothing else: the dead actor's own level
is untouched), and the actor becomes a non-blocking corpse:
`blocks_movement = False`, `ai = None`, render order `CORPSE`, name
prefixed with "remains of" (and the `%` glyph).  The hypothesis that
the player's `level_up_base` is non-zero matches the game's player
(`Level(level_up_base=200)`); with a zero base `add_xp` ignores the
award (claim C9). -/
theorem c10_die_awards_player_xp_and_makes_corpse (s : AState)
    (hnp : s.isPlayer = false)
    (hbase : s.playerLevel.level_up_base ≠ 0) :
    (die s).playerLevel.current_xp
      = s.playerLevel.current_xp + s.actor.level.xp_given
    ∧ (die s).actor.blocks_movement = false
    ∧ (die s).actor.ai = AIState.noAI
    ∧ (die s).actor.render_order = RenderOrder.CORPSE
    ∧ (die s).actor.name = "remains of " ++ s.actor.name
    ∧ (die s).actor.char = "%"
    ∧ (die s).actor.level = s.actor.level := by
  unfold die
  rw [hnp]
  simp only [Bool.false_eq_true, if_false]
  refine ⟨add_xp_current_xp _ _ _ hbase, ?_, ?_, ?_, ?_, ?_, ?_⟩ <;> trivial

/-- Witness for C10: the orc dies, the player's level gains the orc's
`xp_given = 100`, and the orc is now a corpse. -/
theorem c10_die_awards_player_xp_and_makes_corpse_witness :
    (c10state.isPlayer = false
     ∧ c10state.playerLevel.level_up_base ≠ 0)
    ∧ ((die c10state).playerLevel.current_xp
        = c10state.playerLevel.current_xp + c10state.actor.level.xp_given
      ∧ (die c10state).actor.blocks_movement = false
      ∧ (die c10state).actor.ai = AIState.noAI
      ∧ (die c10state).actor.render_order = RenderOrder.CORPSE
      ∧ (die c10state).actor.name = "remains of " ++ c10state.actor.name
      ∧ (die c10state).actor.char = "%"
      ∧ (die c10state).actor.level = c10state.actor.level) :=
  ⟨⟨by decide, by decide⟩,
    c10_die_awards_player_xp_and_makes_corpse c10state
      (by decide) (by decide)⟩

/-! ## Claim C5: `LightingDamageConsumable.activate` -/

lemma lightningLoop_spec (c : ActorE) (vis : Int → Int → Bool)
    (as : List ActorE) :
    ∀ (t0 : Option ActorE) (c0 : Int),
    (lightningLoop c vis as t0 c0 = (t0, c0)
      ∧ ∀ a ∈ as, (a.id ≠ c.id ∧ vis a.x a.y = true) →
          c0 ≤ distSq c.x c.y a.x a.y)
    ∨ (∃ t, (lightningLoop c vis as t0 c0).1 = some t
        ∧ (lightningLoop c vis as t0 c0).2 = distSq c.x c.y t.x t.y
        ∧ t ∈ as ∧ (t.id ≠ c.id ∧ vis t.x t.y = true)
        ∧ distSq c.x c.y t.x t.y < c0
        ∧ (∀ a ∈ as, (a.id ≠ c.id ∧ vis a.x a.y = true) →
            distSq c.x c.y t.x t.y ≤ distSq c.x c.y a.x a.y)
        ∧ ∃ l1 l2, as = l1 ++ t :: l2
            ∧ ∀ a ∈ l1, (a.id ≠ c.id ∧ vis a.x a.y = true) →
                distSq c.x c.y t.x t.y < distSq c.x c.y a.x a.y) := by
  induction as with
  | nil =>
    intro t0 c0
    exact Or.inl ⟨rfl, by simp⟩
  | cons a rest ih =>
    intro t0 c0
    by_cases hpred : a.id ≠ c.id ∧ vis a.x a.y = true
    · by_cases hlt : distSq c.x c.y a.x a.y < c0
      · have hloop : lightningLoop c vis (a :: rest) t0 c0
            = lightningLoop c vis rest (some a) (distSq c.x c.y a.x a.y) := by
          simp only [lightningLoop]
          rw [if_pos hpred, if_pos hlt]
        rcases ih (some a) (distSq c.x c.y a.x a.y) with
          ⟨heq, hall⟩ | ⟨t, h1, h2, hmem, hp, hc, hmin, l1, l2, hsp, hfst⟩
        · refine Or.inr ⟨a, ?_, ?_, List.mem_cons_self a rest, hpred, hlt,
            ?_, [], rest, rfl, by simp⟩
          · rw [hloop, heq]
          · rw [hloop, heq]
          · intro b hb hbp
            rcases List.mem_cons.mp hb with hb1 | hb2
            · subst hb1; exact le_refl _
            · exact hall b hb2 hbp
        · refine Or.inr ⟨t, ?_, ?_, List.mem_cons_of_mem a hmem, hp,
            lt_trans hc hlt, ?_, a :: l1, l2, by rw [hsp, List.cons_append], ?_⟩
          · rw [hloop, h1]
          · rw [hloop, h2]
          · intro b hb hbp
            rcases List.mem_cons.mp hb with hb1 | hb2
            · subst hb1; exact le_of_lt hc
            · exact hmin b hb2 hbp
          · intro b hb hbp
            rcases List.mem_cons.mp hb with hb1 | hb2
            · subst hb1; exact hc
            · exact hfst b hb2 hbp
      · have hloop : lightningLoop c vis (a :: rest) t0 c0
            = lightningLoop c vis rest t0 c0 := by
          simp only [lightningLoop]
          rw [if_pos hpred, if_neg hlt]
        rcases ih t0 c0 with
          ⟨heq, hall⟩ | ⟨t, h1, h2, hmem, hp, hc, hmin, l1, l2, hsp, hfst⟩
        · refine Or.inl ⟨by rw [hloop, heq], ?_⟩
          intro b hb hbp
          rcases List.mem_cons.mp hb with hb1 | hb2
          · subst hb1; exact not_lt.mp hlt
          · exact hall b hb2 hbp
        · refine Or.inr ⟨t, by rw [hloop, h1], by rw [hloop, h2],
            List.mem_cons_of_mem a hmem, hp, hc, ?_, a :: l1, l2,
            by rw [hsp, List.cons_append], ?_⟩
          · intro b hb hbp
            rcases List.mem_cons.mp hb with hb1 | hb2
            · subst hb1; exact le_of_lt (lt_of_lt_of_le hc (not_lt.mp hlt))
            · exact hmin b hb2 hbp
          · intro b hb hbp
            rcases List.mem_cons.mp hb with hb1 | hb2
            · subst hb1; exact lt_of_lt_of_le hc (not_lt.mp hlt)
            · exact hfst b hb2 hbp
    · have hloop : lightningLoop c vis (a :: rest) t0 c0
          = lightningLoop c vis rest t0 c0 := by
        simp only [lightningLoop]
        rw [if_neg hpred]
      rcases ih t0 c0 with
        ⟨heq, hall⟩ | ⟨t, h1, h2, hmem, hp, hc, hmin, l1, l2, hsp, hfst⟩
      · refine Or.inl ⟨by rw [hloop, heq], ?_⟩
        intro b hb hbp
        rcases List.mem_cons.mp hb with hb1 | hb2
        · subst hb1; exact absurd hbp hpred
        · exact hall b hb2 hbp
      · refine Or.inr ⟨t, by rw [hloop, h1], by rw [hloop, h2],
          List.mem_cons_of_mem a hmem, hp, hc, ?_, a :: l1, l2,
          by rw [hsp, List.cons_append], ?_⟩
        · intro b hb hbp
          rcases List.mem_cons.mp hb with hb1 | hb2
          · subst hb1; exact absurd hbp hpred
          · exact hmin b hb2 hbp
        · intro b hb hbp
          rcases List.mem_cons.mp hb with hb1 | hb2
          · subst hb1; exact absurd hbp hpred
          · exact hfst b hb2 hbp

lemma mem_of_aliveActors (w : World) (t : ActorE)
    (h : t ∈ w.aliveActors) :
    Entity.actor t ∈ w.entities ∧ t.is_alive = true := by
  unfold World.aliveActors at h
  rcases List.mem_filterMap.mp h with ⟨e, hemem, hsome⟩
  cases e with
  | item i => simp at hsome
  | actor b =>
    by_cases hb : b.is_alive
    · simp only [hb, if_pos] at hsome
      cases hsome
      exact ⟨hemem, hb⟩
    · simp [hb] at hsome

lemma setHp_other_inventory (w : World) (id j : Nat) (v : Int)
    (hne : j ≠ id) :
    ((w.setHp id v).findActor j).map (fun a => a.inventory)
      = (w.findActor j).map (fun a => a.inventory) := by
  unfold World.setHp
  cases hfind : w.findActor id with
  | none => rfl
  | some t =>
    have htid : t.id = id := findActorIn_id id w.entities t hfind
    have hcon : ∀ b : ActorE, b.id = id →
        ((fun _ : ActorE => (setHpState w id t v).actor) b).id = id :=
      fun b _ => (setHpState_actor_id w id t v).trans htid
    dsimp only
    by_cases hp : id = w.playerId
    · rw [if_pos hp, findActor_updateActor_other _ id j _ hne hcon]
      rfl
    · rw [if_neg hp]
      by_cases hj : j = w.playerId
      · subst hj
        rw [findActor_updateActor_self _ _
            (fun p => { p with level := (setHpState w id t v).playerLevel })
            (fun b hb => hb),
          findActor_updateActor_other _ id _ _ hne hcon,
          Option.map_map]
        rfl
      · rw [findActor_updateActor_other _ w.playerId j
            (fun p => { p with level := (setHpState w id t v).playerLevel })
            hj (fun b hb => hb),
          findActor_updateActor_other _ id j _ hne hcon]
        rfl

lemma takeDamage_other_inventory (w : World) (id j : Nat) (amount : Int)
    (hne : j ≠ id) :
    ((w.takeDamage id amount).findActor j).map (fun a => a.inventory)
      = (w.findActor j).map (fun a => a.inventory) := by
  unfold World.takeDamage
  cases hfind : w.findActor id with
  | none => rfl
  | some t => exact setHp_other_inventory w id j _ hne

/-- C5 (amended): `LightingDamageConsumable.activate` auto-targets,
among the living actors other than the consumer whose tile is
visible, the first one (in `game_map.actors` iteration order) at
minimal Euclidean distance among those with distance strictly less
than `maximun_range + 1` (the loop starts its threshold at
`maximun_range + 1.0`, not at `maximun_range`); it logs the strike,
applies `damage` through the clamping hp setter, and removes the
scroll from the consumer's inventory; when no actor lies strictly
within `maximun_range + 1` it raises `Impossible` and changes
nothing, so the item is not consumed.  Distances are compared through
their squares, which is exact for the square root. -/
theorem c5_lightning_nearest_visible_within_range_plus_one
    (w : World) (consumer : ActorE) (itemId : Nat) (damage R : Int)
    (sel : Option ActorE) (hnodup : w.idsNodup)
    (hcmem : Entity.actor consumer ∈ w.entities)
    (hsel : (lightningLoop consumer w.visible w.aliveActors none
        ((R + 1) ^ 2)).1 = sel) :
    match sel with
    | none =>
      lightningActivate w consumer itemId damage R
        = (w, some "No enemy is close enough to strike.")
      ∧ ∀ a ∈ w.aliveActors,
          (a.id ≠ consumer.id ∧ w.visible a.x a.y = true) →
          (R + 1) ^ 2 ≤ distSq consumer.x consumer.y a.x a.y
    | some t =>
      t ∈ w.aliveActors
      ∧ t.id ≠ consumer.id
      ∧ w.visible t.x t.y = true
      ∧ distSq consumer.x consumer.y t.x t.y < (R + 1) ^ 2
      ∧ (∀ a ∈ w.aliveActors,
          (a.id ≠ consumer.id ∧ w.visible a.x a.y = true) →
          distSq consumer.x consumer.y t.x t.y
            ≤ distSq consumer.x consumer.y a.x a.y)
      ∧ (∃ l1 l2, w.aliveActors = l1 ++ t :: l2
          ∧ ∀ a ∈ l1, (a.id ≠ consumer.id ∧ w.visible a.x a.y = true) →
              distSq consumer.x consumer.y t.x t.y
                < distSq consumer.x consumer.y a.x a.y)
      ∧ (lightningActivate w consumer itemId damage R).2 = none
      ∧ ((lightningActivate w consumer itemId damage R).1.findActor
            t.id).map (fun a => a.fighter.hp)
          = some (max 0 (min (t.fighter.hp - damage) t.fighter.max_hp))
      ∧ ((lightningActivate w consumer itemId damage R).1.findActor
            consumer.id).map (fun a => a.inventory)
          = some (removeItemById consumer.inventory itemId) := by
  have hspec := lightningLoop_spec consumer w.visible w.aliveActors
    none ((R + 1) ^ 2)
  cases sel with
  | none =>
    rcases hspec with ⟨heq, hall⟩ |
      ⟨t, h1, h2, hmem, hp, hc, hmin, l1, l2, hsp, hfst⟩
    · constructor
      · simp only [lightningActivate, heq]
      · exact hall
    · rw [h1] at hsel
      cases hsel
  | some t =>
    rcases hspec with ⟨heq, hall⟩ |
      ⟨t', h1, h2, hmem, hp, hc, hmin, l1, l2, hsp, hfst⟩
    · rw [heq] at hsel
      cases hsel
    · rw [h1] at hsel
      have ht : t' = t := Option.some.inj hsel
      subst ht
      have hred : lightningActivate w consumer itemId damage R
          = (((w.addMessage ("A lighting bolt strikes the " ++ t'.name ++
              " with a loud thunder, for " ++ toString damage ++
              " damage!")).takeDamage t'.id damage).updateActor
              consumer.id
              (fun c => { c with
                inventory := removeItemById c.inventory itemId }),
             none) := by
        simp only [lightningActivate, h1]
      have hament := mem_of_aliveActors w t' hmem
      have hfind : w.findActor t'.id = some t' :=
        findActor_of_mem_nodup w t' hament.1 hnodup
      have hconsfind : w.findActor consumer.id = some consumer :=
        findActor_of_mem_nodup w consumer hcmem hnodup
      have hne : t'.id ≠ consumer.id := hp.1
      refine ⟨hmem, hp.1, hp.2, hc, hmin, ⟨l1, l2, hsp, hfst⟩, ?_, ?_, ?_⟩
      · rw [hred]
      · rw [hred]
        dsimp only
        rw [findActor_updateActor_other _ consumer.id t'.id
            (fun c => { c with
              inventory := removeItemById c.inventory itemId })
            hne (fun b hb => hb)]
        exact takeDamage_target_hp _ t'.id damage t' hfind
      · rw [hred]
        dsimp only
        rw [findActor_updateActor_self _ consumer.id
            (fun c => { c with
              inventory := removeItemById c.inventory itemId })
            (fun b hb => hb),
          Option.map_map]
        have hinv : (((w.addMessage ("A lighting bolt strikes the " ++
            t'.name ++ " with a loud thunder, for " ++ toString damage ++
            " damage!")).takeDamage t'.id damage).findActor
              consumer.id).map (fun a => a.inventory)
            = some consumer.inventory := by
          rw [takeDamage_other_inventory _ t'.id consumer.id damage
            (fun h => hne h.symm)]
          exact congrArg (Option.map fun a => a.inventory) hconsfind
        cases hcase : ((w.addMessage ("A lighting bolt strikes the " ++
            t'.name ++ " with a loud thunder, for " ++ toString damage ++
            " damage!")).takeDamage t'.id damage).findActor consumer.id with
        | none =>
          rw [hcase] at hinv
          cases hinv
        | some b =>
          rw [hcase] at hinv
          have hbinv : b.inventory = consumer.inventory :=
            Option.some.inj hinv
          simp [Function.comp, hbinv]

/-- C5 counterexample: the only visible enemy stands at squared
distance 32 > 25, i.e. not strictly within `maximun_range = 5`, yet
the scroll does NOT raise `Impossible`: it strikes the orc (hp drops
to 0) and is consumed, because the loop's threshold starts at
`maximun_range + 1.0` and `sqrt 32 < 6`. -/
theorem c5_counterexample_beyond_max_range_struck :
    distSq c5consumer.x c5consumer.y c5orc.x c5orc.y = 32
    ∧ (5 : Int) ^ 2 < 32
    ∧ (lightningActivate c5cworld c5consumer 7 20 5).2 = none
    ∧ ((lightningActivate c5cworld c5consumer 7 20 5).1.findActor 2).map
        (fun a => a.fighter.hp) = some 0
    ∧ ((lightningActivate c5cworld c5consumer 7 20 5).1.findActor 1).map
        (fun a => a.inventory) = some [] := by
  refine ⟨by decide, by decide, by decide, ?_, ?_⟩ <;> decide

/-- Witness for C5 (amended): the adjacent orc (squared distance 1) is
selected, struck for 20 damage (hp clamps to 0), and the scroll leaves
the inventory. -/
theorem c5_lightning_nearest_visible_witness :
    (c5wworld.idsNodup
     ∧ Entity.actor c5consumer ∈ c5wworld.entities
     ∧ (lightningLoop c5consumer c5wworld.visible c5wworld.aliveActors
          none ((5 + 1) ^ 2)).1 = some sampleOrc)
    ∧ (sampleOrc ∈ c5wworld.aliveActors
      ∧ sampleOrc.id ≠ c5consumer.id
      ∧ c5wworld.visible sampleOrc.x sampleOrc.y = true
      ∧ distSq c5consumer.x c5consumer.y sampleOrc.x sampleOrc.y
          < (5 + 1) ^ 2
      ∧ (∀ a ∈ c5wworld.aliveActors,
          (a.id ≠ c5consumer.id ∧ c5wworld.visible a.x a.y = true) →
          distSq c5consumer.x c5consumer.y sampleOrc.x sampleOrc.y
            ≤ distSq c5consumer.x c5consumer.y a.x a.y)
      ∧ (∃ l1 l2, c5wworld.aliveActors = l1 ++ sampleOrc :: l2
          ∧ ∀ a ∈ l1,
              (a.id ≠ c5consumer.id ∧ c5wworld.visible a.x a.y = true) →
              distSq c5consumer.x c5consumer.y sampleOrc.x sampleOrc.y
                < distSq c5consumer.x c5consumer.y a.x a.y)
      ∧ (lightningActivate c5wworld c5consumer 7 20 5).2 = none
      ∧ ((lightningActivate c5wworld c5consumer 7 20 5).1.findActor
            sampleOrc.id).map (fun a => a.fighter.hp)
          = some (max 0 (min (sampleOrc.fighter.hp - 20)
              sampleOrc.fighter.max_hp))
      ∧ ((lightningActivate c5wworld c5consumer 7 20 5).1.findActor
            c5consumer.id).map (fun a => a.inventory)
          = some (removeItemById c5consumer.inventory 7)) :=
  ⟨⟨by decide, by decide, by decide⟩,
    c5_lightning_nearest_visible_within_range_plus_one c5wworld
      c5consumer 7 20 5 (some sampleOrc) (by decide) (by decide)
      (by decide)⟩

/-! ## Claim C4: `ConfusedEnemy.perform` -/

lemma setHp_other_ai (w : World) (id j : Nat) (v : Int) (hne : j ≠ id) :
    ((w.setHp id v).findActor j).map (fun a => a.ai)
      = (w.findActor j).map (fun a => a.ai) := by
  unfold World.setHp
  cases hfind : w.findActor id with
  | none => rfl
  | some t =>
    have htid : t.id = id := findActorIn_id id w.entities t hfind
    have hcon : ∀ b : ActorE, b.id = id →
        ((fun _ : ActorE => (setHpState w id t v).actor) b).id = id :=
      fun b _ => (setHpState_actor_id w id t v).trans htid
    dsimp only
    by_cases hp : id = w.playerId
    · rw [if_pos hp, findActor_updateActor_other _ id j _ hne hcon]
      rfl
    · rw [if_neg hp]
      by_cases hj : j = w.playerId
      · subst hj
        rw [findActor_updateActor_self _ _
            (fun p => { p with level := (setHpState w id t v).playerLevel })
            (fun b hb => hb),
          findActor_updateActor_other _ id _ _ hne hcon,
          Option.map_map]
        rfl
      · rw [findActor_updateActor_other _ w.playerId j
            (fun p => { p with level := (setHpState w id t v).playerLevel })
            hj (fun b hb => hb),
          findActor_updateActor_other _ id j _ hne hcon]
        rfl

lemma takeDamage_other_ai (w : World) (id j : Nat) (amount : Int)
    (hne : j ≠ id) :
    ((w.takeDamage id amount).findActor j).map (fun a => a.ai)
      = (w.findActor j).map (fun a => a.ai) := by
  unfold World.takeDamage
  cases hfind : w.findActor id with
  | none => rfl
  | some t => exact setHp_other_ai w id j _ hne

lemma movementPerform_success (w : World) (e : ActorE) (dx dy : Int)
    (h1 : w.in_bounds (e.x + dx) (e.y + dy) = true)
    (h2 : w.walkable (e.x + dx) (e.y + dy) = true)
    (h3 : (w.get_blocking_entity_at_location (e.x + dx) (e.y + dy)).isSome
        = false) :
    movementPerform w e dx dy
      = (w.updateActor e.id
          (fun a => { a with x := a.x + dx, y := a.y + dy }), none) := by
  unfold movementPerform
  rw [if_neg (by simp [h1]), if_neg (by simp [h2]), if_neg (by simp [h3])]

lemma movement_preserves_ai (w : World) (e : ActorE) (dx dy : Int)
    (j : Nat) :
    ((movementPerform w e dx dy).1.findActor j).map (fun a => a.ai)
      = (w.findActor j).map (fun a => a.ai) := by
  by_cases h1 : w.in_bounds (e.x + dx) (e.y + dy) = true
  · by_cases h2 : w.walkable (e.x + dx) (e.y + dy) = true
    · by_cases h3 :
        (w.get_blocking_entity_at_location (e.x + dx) (e.y + dy)).isSome
          = true
      · simp [movementPerform, h1, h2, h3]
      · rw [movementPerform_success w e dx dy h1 h2 (by simpa using h3)]
        dsimp only
        by_cases hj : j = e.id
        · subst hj
          rw [findActor_updateActor_self _ _
              (fun a => { a with x := a.x + dx, y := a.y + dy })
              (fun b hb => hb), Option.map_map]
          rfl
        · rw [findActor_updateActor_other _ e.id j
              (fun a => { a with x := a.x + dx, y := a.y + dy })
              hj (fun b hb => hb)]
    · simp [movementPerform, h1, h2]
  · simp [movementPerform, h1]

lemma melee_preserves_other_ai (w : World) (e : ActorE) (dx dy : Int)
    (j : Nat)
    (htgt : ∀ t, w.get_actor_at_location (e.x + dx) (e.y + dy) = some t →
        t.id ≠ j) :
    ((meleePerform w e dx dy).1.findActor j).map (fun a => a.ai)
      = (w.findActor j).map (fun a => a.ai) := by
  cases hm : w.get_actor_at_location (e.x + dx) (e.y + dy) with
  | none => simp [meleePerform, hm]
  | some t =>
    have hne : j ≠ t.id := fun h => htgt t hm h.symm
    simp only [meleePerform, hm]
    by_cases hd : 0 < e.power - t.defense
    · rw [if_pos hd]
      exact takeDamage_other_ai _ t.id j _ hne
    · rw [if_neg hd]
      rfl

lemma bump_preserves_other_ai (w : World) (e : ActorE) (dx dy : Int)
    (j : Nat)
    (htgt : ∀ t, w.get_actor_at_location (e.x + dx) (e.y + dy) = some t →
        t.id ≠ j) :
    ((bumpPerform w e dx dy).1.findActor j).map (fun a => a.ai)
      = (w.findActor j).map (fun a => a.ai) := by
  unfold bumpPerform
  by_cases hb : (w.get_actor_at_location (e.x + dx) (e.y + dy)).isSome
  · rw [if_pos hb]
    exact melee_preserves_other_ai w e dx dy j htgt
  · rw [if_neg hb]
    exact movement_preserves_ai w e dx dy j

lemma updateActor_ids (w : World) (id : Nat) (f : ActorE → ActorE)
    (hid : ∀ b, b.id = id → (f b).id = id) :
    (w.updateActor id f).entities.map Entity.id
      = w.entities.map Entity.id := by
  unfold World.updateActor
  induction w.entities with
  | nil => rfl
  | cons e rest ih =>
    cases e with
    | item i => simpa using ih
    | actor a =>
      by_cases h : a.id = id
      · have : (f a).id = a.id := (hid a h).trans h.symm
        simpa [h, Entity.id, this] using ih
      · simpa [h] using ih

/-- C4: while the countdown has not reached zero, `ConfusedEnemy
.perform` draws one of the eight compass directions (the oracle
`pick : Fin 8` indexes the eight-element duplicate-free `directions`
list, so a uniform `pick` is a uniform direction), decrements
`turns_remaining`, and performs a `BumpAction` in that direction —
afterwards the actor's AI is still `ConfusedEnemy` with the countdown
reduced by exactly one.  Once the countdown has reached zero the next
invocation logs the recovery message and restores the stored previous
AI without moving the actor and without a bump.  With
`turns_remaining = 1` this yields exactly one more random bump and
then the restoring invocation. -/
theorem c4_confused_random_bump_then_restore
    (w : World) (id : Nat) (pick : Fin 8) (a : ActorE)
    (previous : AIState) (turns : Int) (hnodup : w.idsNodup)
    (hfind : w.findActor id = some a)
    (hai : a.ai = AIState.confused previous turns) :
    (turns ≤ 0 →
      confusedPerform w id pick
        = (World.updateActor
            (w.addMessage ("The " ++ a.name ++ " is no longer confused."))
            id (fun x => { x with ai := previous }), none)
      ∧ ((confusedPerform w id pick).1.findActor id).map
          (fun x => (x.x, x.y, x.ai)) = some (a.x, a.y, previous))
    ∧ (0 < turns →
      confusedPerform w id pick
        = bumpPerform
            (w.updateActor id (fun x =>
              { x with ai := AIState.confused previous (turns - 1) }))
            { a with ai := AIState.confused previous (turns - 1) }
            (directions.getD pick.val (0, 0)).1
            (directions.getD pick.val (0, 0)).2
      ∧ ((confusedPerform w id pick).1.findActor id).map (fun x => x.ai)
          = some (AIState.confused previous (turns - 1)))
    ∧ directions.length = 8
    ∧ directions.Nodup
    ∧ directions.getD pick.val (0, 0) ∈ directions := by
  refine ⟨?_, ?_, by decide, by decide, ?_⟩
  · intro h0
    have hr : confusedPerform w id pick
        = (World.updateActor
            (w.addMessage ("The " ++ a.name ++ " is no longer confused."))
            id (fun x => { x with ai := previous }), none) := by
      simp only [confusedPerform, hfind, hai]
      rw [if_pos h0]
    refine ⟨hr, ?_⟩
    rw [hr]
    dsimp only
    rw [findActor_updateActor_self _ id
        (fun x => { x with ai := previous }) (fun b hb => hb)]
    have hfind2 : (w.addMessage ("The " ++ a.name ++
        " is no longer confused.")).findActor id = some a := hfind
    rw [hfind2]
    rfl
  · intro h0
    have hr : confusedPerform w id pick
        = bumpPerform
            (w.updateActor id (fun x =>
              { x with ai := AIState.confused previous (turns - 1) }))
            { a with ai := AIState.confused previous (turns - 1) }
            (directions.getD pick.val (0, 0)).1
            (directions.getD pick.val (0, 0)).2 := by
      simp only [confusedPerform, hfind, hai]
      rw [if_neg (not_le.mpr h0)]
    have hw1find : (w.updateActor id (fun x =>
        { x with ai := AIState.confused previous (turns - 1) })).findActor
          id = some { a with ai := AIState.confused previous (turns - 1) }
        := by
      rw [findActor_updateActor_self _ id
          (fun x => { x with ai := AIState.confused previous (turns - 1) })
          (fun b hb => hb), hfind]
      rfl
    have hw1nodup : (w.updateActor id (fun x =>
        { x with ai := AIState.confused previous (turns - 1) })).idsNodup
        := by
      unfold World.idsNodup
      rw [updateActor_ids w id
        (fun x => { x with ai := AIState.confused previous (turns - 1) })
        (fun b hb => hb)]
      exact hnodup
    have hd0 : directions.getD pick.val (0, 0) ≠ ((0 : Int), (0 : Int))
        := by
      have hall : ∀ i : Fin 8,
          directions.getD i.val (0, 0) ≠ ((0 : Int), (0 : Int)) := by
        decide
      exact hall pick
    have htgt : ∀ t : ActorE,
        World.get_actor_at_location
            (w.updateActor id (fun x =>
              { x with ai := AIState.confused previous (turns - 1) }))
            (({ a with ai := AIState.confused previous (turns - 1) }
                : ActorE).x + (directions.getD pick.val (0, 0)).1)
            (({ a with ai := AIState.confused previous (turns - 1) }
                : ActorE).y + (directions.getD pick.val (0, 0)).2)
          = some t → t.id ≠ id := by
      intro t ht hts
      have hmem := get_actor_at_location_mem _ _ _ t ht
      have hfind3 := findActor_of_mem_nodup _ t hmem.1 hw1nodup
      rw [hts, hw1find] at hfind3
      have hta : ({ a with ai := AIState.confused previous (turns - 1) }
          : ActorE) = t := Option.some.inj hfind3
      apply hd0
      have hx : (directions.getD pick.val (0, 0)).1 = 0 := by
        have hh := hmem.2.2.1
        rw [← hta] at hh
        linarith
      have hy : (directions.getD pick.val (0, 0)).2 = 0 := by
        have hh := hmem.2.2.2
        rw [← hta] at hh
        linarith
      calc directions.getD pick.val (0, 0)
          = ((directions.getD pick.val (0, 0)).1,
             (directions.getD pick.val (0, 0)).2) := rfl
        _ = ((0 : Int), (0 : Int)) := by rw [hx, hy]
    refine ⟨hr, ?_⟩
    rw [hr]
    rw [bump_preserves_other_ai _ _ _ _ id htgt, hw1find]
    rfl
  · have hall : ∀ i : Fin 8, directions.getD i.val (0, 0) ∈ directions
        := by decide
    exact hall pick

/-- Witness for C4: the confused orc with `turns_remaining = 1` and
oracle pick 4 (direction `(1, 0)`) bumps once, its countdown reaching
0, and its AI stays confused wrapping the hostile AI. -/
theorem c4_confused_random_bump_then_restore_witness :
    (c4world.idsNodup
     ∧ c4world.findActor 2 = some c4orc
     ∧ c4orc.ai = AIState.confused (AIState.hostile []) 1)
    ∧ (((1 : Int) ≤ 0 →
        confusedPerform c4world 2 (4 : Fin 8)
          = (World.updateActor
              (c4world.addMessage ("The " ++ c4orc.name ++
                " is no longer confused."))
              2 (fun x => { x with ai := AIState.hostile [] }), none)
        ∧ ((confusedPerform c4world 2 (4 : Fin 8)).1.findActor 2).map
            (fun x => (x.x, x.y, x.ai))
            = some (c4orc.x, c4orc.y, AIState.hostile []))
      ∧ ((0 : Int) < 1 →
        confusedPerform c4world 2 (4 : Fin 8)
          = bumpPerform
              (c4world.updateActor 2 (fun x =>
                { x with ai := AIState.confused (AIState.hostile []) (1 - 1) }))
              { c4orc with ai := AIState.confused (AIState.hostile []) (1 - 1) }
              (directions.getD (4 : Fin 8).val (0, 0)).1
              (directions.getD (4 : Fin 8).val (0, 0)).2
        ∧ ((confusedPerform c4world 2 (4 : Fin 8)).1.findActor 2).map
            (fun x => x.ai)
            = some (AIState.confused (AIState.hostile []) (1 - 1)))
      ∧ directions.length = 8
      ∧ directions.Nodup
      ∧ directions.getD (4 : Fin 8).val (0, 0) ∈ directions) :=
  ⟨⟨by decide, by decide, by decide⟩,
    c4_confused_random_bump_then_restore c4world 2 (4 : Fin 8) c4orc
      (AIState.hostile []) 1 (by decide) (by decide) (by decide)⟩
